import Mathlib

/-!
Verification development for the rpi-sim868 crate: a shallow embedding of the
serial-port command broker (serial_port.rs), the resolver library (lib.rs) and
the feature modules (hat.rs, gnss.rs, gprs.rs) together with theorems about
the frozen specification claims.

Modelling conventions:
- Rust Result<T, Error> is embedded as Except Error T.
- Functions that can panic (index out of bounds, .expect on a parse) return
  Option: none models a panic, some models a normal return.
- Machine floats (f32) are embedded as exact decimal fractions: a Decimal
  value with numerator num and denominator den (a power of ten) denotes the
  rational num / den.  Float rounding is not modelled; all inputs in scope
  are short decimal literals.
- The UART environment of one uart_read call is a list of polls.  A poll is
  a pair of the wall-clock milliseconds elapsed when the loop condition is
  checked and the outcome of the inner byte-reading loop of that iteration:
  Except.ok s is the UTF-8 decoding of the bytes read in that iteration
  (the source decodes invalid UTF-8 to the empty string, so an invalid read
  is the poll Except.ok with the empty string), and Except.error e is a
  failed uart.read call, which the source propagates with the question mark
  operator.
-/

namespace Sim868

/-- Embedding of ErrorKind from error.rs. -/
inductive ErrorKind where
  | GnssModuleOff
  | GnssNotFixed
  | GnssProblem
  | GprsApnConfigSetFailed
  | GprsConnectionCloseFailed
  | GprsConnectionOpenFailed
  | GprsHttpRequestFailed
  | GprsNoConnection
  | HatAlreadyOff
  | HatAlreadyOn
  | JsonSerialisationFailed
  | NotResolved
  | PhoneCallNotAnswered
  | PhoneCallNotCalled
  | PhoneCallNotEnded
  | RequestBodyParsingFailed
  | SmsNotSent
  | SmsProblemWithReadingMessages
  | SmsProblemWithSettingTextMode
  | SmsRemoveMessageFailed
  | Uart
  | UrlParse
deriving DecidableEq

/-- Embedding of Error from error.rs.  Payload values carried by the source
variants (serde errors, rppal errors, url errors) are external collaborator
types and are dropped; only the variant identity is modelled, which is all
the code under verification inspects (via Error::kind). -/
inductive Error where
  | GnssModuleOff
  | GnssNotFixed
  | GnssProblem
  | GprsApnConfigSetFailed
  | GprsConnectionCloseFailed
  | GprsConnectionOpenFailed
  | GprsHttpRequestFailed
  | GprsNoConnection
  | HatAlreadyOff
  | HatAlreadyOn
  | JsonSerialisationFailed
  | NotResolved
  | PhoneCallNotAnswered
  | PhoneCallNotCalled
  | PhoneCallNotEnded
  | RequestBodyParsingFailed
  | SmsNotSent
  | SmsProblemWithReadingMessages
  | SmsProblemWithSettingTextMode
  | SmsRemoveMessageFailed
  | Uart
  | UrlParse
deriving DecidableEq

/-- Embedding of Error::kind from error.rs. -/
def Error.kind : Error → ErrorKind
  | Error.GnssModuleOff => ErrorKind.GnssModuleOff
  | Error.GnssNotFixed => ErrorKind.GnssNotFixed
  | Error.GnssProblem => ErrorKind.GnssProblem
  | Error.GprsApnConfigSetFailed => ErrorKind.GprsApnConfigSetFailed
  | Error.GprsConnectionCloseFailed => ErrorKind.GprsConnectionCloseFailed
  | Error.GprsConnectionOpenFailed => ErrorKind.GprsConnectionOpenFailed
  | Error.GprsHttpRequestFailed => ErrorKind.GprsHttpRequestFailed
  | Error.GprsNoConnection => ErrorKind.GprsNoConnection
  | Error.HatAlreadyOff => ErrorKind.HatAlreadyOff
  | Error.HatAlreadyOn => ErrorKind.HatAlreadyOn
  | Error.JsonSerialisationFailed => ErrorKind.JsonSerialisationFailed
  | Error.NotResolved => ErrorKind.NotResolved
  | Error.PhoneCallNotAnswered => ErrorKind.PhoneCallNotAnswered
  | Error.PhoneCallNotCalled => ErrorKind.PhoneCallNotCalled
  | Error.PhoneCallNotEnded => ErrorKind.PhoneCallNotEnded
  | Error.RequestBodyParsingFailed => ErrorKind.RequestBodyParsingFailed
  | Error.SmsNotSent => ErrorKind.SmsNotSent
  | Error.SmsProblemWithReadingMessages => ErrorKind.SmsProblemWithReadingMessages
  | Error.SmsProblemWithSettingTextMode => ErrorKind.SmsProblemWithSettingTextMode
  | Error.SmsRemoveMessageFailed => ErrorKind.SmsRemoveMessageFailed
  | Error.Uart => ErrorKind.Uart
  | Error.UrlParse => ErrorKind.UrlParse

/-- Substring containment on character lists: containsPat s pat is true when
pat occurs contiguously in s.  This is the semantics of Regex::is_match for
the literal regexes of lib.rs, whose patterns contain no metacharacters. -/
def containsPat : List Char → List Char → Bool
  | _, [] => true
  | [], _ :: _ => false
  | c :: rest, p :: ps => (List.isPrefixOf (p :: ps) (c :: rest)) || containsPat rest (p :: ps)

/-- Embedding of ack_check from lib.rs: the ACK_REGEX literal matched against
the text. -/
def ack_check (text : String) : Bool := containsPat text.data "\r\nOK\r\n".data

/-- Embedding of error_check from lib.rs: the ERROR_REGEX literal matched
against the text. -/
def error_check (text : String) : Bool := containsPat text.data "\r\nERROR\r\n".data

/-- Embedding of generic_resolver from lib.rs. -/
def generic_resolver (result : String) (err : Error) : Except Error Unit :=
  if error_check result then Except.error err
  else if ack_check result then Except.ok ()
  else Except.error Error.NotResolved

/-- One uart_read poll iteration environment: elapsed milliseconds at the
loop-condition check, and the decoded text of the bytes read (or the error
of a failed uart.read call). -/
abbrev Poll := Nat × Except Error String

/-- Embedding of the polling loop of uart_read from serial_port.rs, lines
64-116, together with the trace of strings passed to the resolver.  The
component fst is the value uart_read returns; snd lists, in order, every
string the resolver was invoked on.  The byte buffer read_vec is created
afresh inside the while loop in the source, so each resolver invocation
receives only the text of its own iteration. -/
def uartReadGo {T : Type} (timeout : Nat) (resolver : String → Except Error T) :
    List Poll → Except Error T × List String
  | [] => (Except.error Error.NotResolved, [])
  | (elapsed, chunk) :: rest =>
    if elapsed ≤ timeout then
      match chunk with
      | Except.error e => (Except.error e, [])
      | Except.ok s =>
        match resolver s with
        | Except.ok d => (Except.ok d, [s])
        | Except.error e =>
          if e.kind = ErrorKind.NotResolved then
            let r := uartReadGo timeout resolver rest
            (r.1, s :: r.2)
          else (Except.error e, [s])
    else (Except.error Error.NotResolved, [])

/-- Result of uart_read from serial_port.rs on a poll environment. -/
def uart_read {T : Type} (timeout : Nat) (resolver : String → Except Error T)
    (polls : List Poll) : Except Error T :=
  (uartReadGo timeout resolver polls).1

/-- Trace of the strings passed to the resolver during one uart_read call. -/
def uartReadTrace {T : Type} (timeout : Nat) (resolver : String → Except Error T)
    (polls : List Poll) : List String :=
  (uartReadGo timeout resolver polls).2

/-- Builds a poll environment in which every uart.read call succeeds. -/
def mkPolls (ps : List (Nat × String)) : List Poll :=
  ps.map (fun p => (p.1, Except.ok p.2))

/-- Embedding of SerialPort::read from serial_port.rs: the timeout defaults
to 1000 milliseconds when none is supplied. -/
def serial_read {T : Type} (timeout : Option Nat) (resolver : String → Except Error T)
    (polls : List Poll) : Except Error T :=
  uart_read (timeout.getD 1000) resolver polls

/-- Embedding of SerialPort::process from serial_port.rs: flush both queues
and write the command (writeRes is the combined outcome of those two
fallible steps, propagated by the question mark operator), then uart_read
with the defaulted timeout. -/
def serial_process {T : Type} (writeRes : Except Error Unit) (timeout : Option Nat)
    (resolver : String → Except Error T) (polls : List Poll) : Except Error T :=
  match writeRes with
  | Except.error e => Except.error e
  | Except.ok _ => uart_read (timeout.getD 1000) resolver polls

/-- Embedding of TaskPriority from serial_port.rs.  The Rust derive of Ord on
the enum orders the variants by declaration order, so NORMAL is less than
HIGH. -/
inductive TaskPriority where
  | NORMAL
  | HIGH
deriving DecidableEq

/-- Numeric value of the derived Rust Ord on TaskPriority: declaration order,
NORMAL before HIGH. -/
def TaskPriority.toNat : TaskPriority → Nat
  | TaskPriority.NORMAL => 0
  | TaskPriority.HIGH => 1

/-- Queue entries: a task identifier with its priority.  Uuid values are
modelled as natural numbers. -/
abbrev QEntry := Nat × TaskPriority

/-- Modelled from the spec: the peek operation of the PriorityQueue used by
SerialPort (the priority_queue crate is an external dependency whose source
is not part of this repository).  The spec ordering contract, section 4.2:
peek returns the entry with the greatest priority and, among entries sharing
the greatest priority, the one pushed earliest.  The queue is represented as
the list of entries in push (insertion) order; an entry strictly later in
the list was pushed strictly later. -/
def queuePeek : List QEntry → Option QEntry
  | [] => none
  | e :: es =>
    match queuePeek es with
    | none => some e
    | some b => if e.2.toNat < b.2.toNat then some b else some e

/-- Embedding of the body of the wait loop of await_in_queue from
serial_port.rs, lines 43-57: peek the queue (none models the panic of the
expect call on an empty queue) and compare the released identifier with the
identifier of the waiting task. -/
def awaitCheck (taskId : Nat) (q : List QEntry) : Option Bool :=
  (queuePeek q).map (fun e => e.1 == taskId)

/-- Queue mutations performed by spawned tasks: add_to_queue pushes a fresh
identifier, remove_from_queue removes the identifier of the finished task. -/
inductive QEvent where
  | push (t : Nat) (p : TaskPriority)
  | remove (t : Nat)
deriving DecidableEq

/-- Modelled from the spec (section 4.2) together with the call sites in
serial_port.rs: push appends in insertion order, remove deletes the entries
carrying the given identifier. -/
def applyEvent (q : List QEntry) : QEvent → List QEntry
  | QEvent.push t p => q ++ [(t, p)]
  | QEvent.remove t => q.filter (fun e => e.1 != t)

/-- Runs a sequence of queue events from a starting queue. -/
def runEvents (q : List QEntry) : List QEvent → List QEntry
  | [] => q
  | e :: es => runEvents (applyEvent q e) es

/-- Identifiers currently in the queue. -/
def ids (q : List QEntry) : List Nat := q.map Prod.fst

/-- Embedding of the task body spawned by spawn_task from serial_port.rs,
lines 118-139: the queue events the task itself performs, in program order
(push on entry, remove after the task function returned), and the task
function result, which is returned unchanged whether it is a success or an
error. -/
def spawn_task_model {T : Type} (t : Nat) (p : TaskPriority) (taskResult : Except Error T) :
    List QEvent × Except Error T :=
  ([QEvent.push t p, QEvent.remove t], taskResult)

/-- Embedding of the resolver of is_on from hat.rs, lines 21-35: success when
the ACK terminator is present, otherwise NotResolved. -/
def hat_is_on_resolver (result : String) : Except Error Bool :=
  if ack_check result then Except.ok true else Except.error Error.NotResolved

/-- Embedding of is_on from hat.rs: process the AT probe with an explicit
2000 millisecond timeout. -/
def hat_is_on (writeRes : Except Error Unit) (polls : List Poll) : Except Error Bool :=
  serial_process writeRes (some 2000) hat_is_on_resolver polls

/-- Embedding of turn_off from hat.rs, lines 37-48.  The second component of
the result records whether the power-down command AT+CPOWD=0 was written to
the UART; powerDown is the outcome of that write. -/
def hat_turn_off (writeRes : Except Error Unit) (polls : List Poll)
    (powerDown : Except Error Unit) : Except Error Unit × Bool :=
  match hat_is_on writeRes polls with
  | Except.ok _ => (powerDown, true)
  | Except.error e =>
    if e.kind = ErrorKind.NotResolved then (Except.error Error.HatAlreadyOff, false)
    else (Except.error e, false)

/-- Embedding of Hat::turn_on from hat.rs, lines 100-112.  The argument is
the result of the awaited is_on probe task; the second component of the
result records whether the GPIO power pulse (toggle_power) was performed. -/
def hat_turn_on (probe : Except Error Bool) : Except Error Unit × Bool :=
  match probe with
  | Except.ok _ => (Except.error Error.HatAlreadyOn, false)
  | Except.error e =>
    if e.kind = ErrorKind.NotResolved then (Except.ok (), true)
    else (Except.error e, false)

/-- Character list of the literal part of the signal strength regex of
lib.rs. -/
def csqTag : List Char := "+CSQ: ".data

/-- Capture of the signal strength regex applied to a character list: the
first position where the literal tag matches, followed by the greedy,
possibly empty digit run that the digit-star group captures.  Returns none
when the tag never occurs (the regex does not match). -/
def csqCaptureGo : List Char → Option (List Char)
  | [] => none
  | c :: rest =>
    if List.isPrefixOf csqTag (c :: rest) then
      some (((c :: rest).drop csqTag.length).takeWhile Char.isDigit)
    else csqCaptureGo rest

/-- Value of an all-digit character list, most significant digit first. -/
def intValOf (cs : List Char) : Nat :=
  cs.foldl (fun a c => 10 * a + (c.toNat - 48)) 0

/-- Digit-run parser: some value when the list is a nonempty run of ASCII
digits, none otherwise. -/
def digitsVal (cs : List Char) : Option Nat :=
  if cs.isEmpty then none
  else if cs.all Char.isDigit then some (intValOf cs) else none

/-- Embedding of str::parse::<u8> from Rust: an optional plus sign, then a
nonempty digit run whose value fits in eight bits. -/
def parseU8 (cs : List Char) : Option Nat :=
  let body := match cs with
    | '+' :: rest => rest
    | _ => cs
  match digitsVal body with
  | some n => if n ≤ 255 then some n else none
  | none => none

/-- Embedding of str::parse::<u32> from Rust: an optional plus sign, then a
nonempty digit run whose value fits in thirty-two bits. -/
def parseU32 (cs : List Char) : Option Nat :=
  let body := match cs with
    | '+' :: rest => rest
    | _ => cs
  match digitsVal body with
  | some n => if n ≤ 4294967295 then some n else none
  | none => none

/-- Embedding of str::parse::<i32> from Rust: an optional sign, then a
nonempty digit run, with the signed thirty-two bit range bounds. -/
def parseI32 (cs : List Char) : Option Int :=
  match cs with
  | '-' :: rest =>
    match digitsVal rest with
    | some n => if n ≤ 2147483648 then some (-(n : Int)) else none
    | none => none
  | '+' :: rest =>
    match digitsVal rest with
    | some n => if n ≤ 2147483647 then some (n : Int) else none
    | none => none
  | _ =>
    match digitsVal cs with
    | some n => if n ≤ 2147483647 then some (n : Int) else none
    | none => none

/-- Embedding of the resolver of network_strength from hat.rs, lines 50-59:
capture the digit group after the CSQ tag and parse it as u8 with an expect
call; none models the panic of that expect on an unparsable capture. -/
def network_strength_resolver (result : String) : Option (Except Error Nat) :=
  match csqCaptureGo result.data with
  | some num =>
    match parseU8 num with
    | some n => some (Except.ok n)
    | none => none
  | none => some (Except.error Error.NotResolved)

/-- Exact decimal fraction: the value num / den, with den a power of ten.
This is the embedding of Rust f32 values parsed from short decimal strings;
float rounding is not modelled. -/
structure Decimal where
  num : Int
  den : Nat
deriving DecidableEq

/-- Embedding of str::parse::<f32> from Rust, restricted to plain decimal
forms (optional sign, digits, optional point and digits), which covers every
string the feature modules parse as a float.  Exponent forms, infinities and
NaN are outside the inputs in scope and are rejected. -/
def parseDecimal (cs : List Char) : Option Decimal :=
  let signed : Int × List Char :=
    match cs with
    | '-' :: rest => (-1, rest)
    | '+' :: rest => (1, rest)
    | _ => (1, cs)
  let body := signed.2
  let ip := body.takeWhile (fun c => c ≠ '.')
  match body.dropWhile (fun c => c ≠ '.') with
  | [] =>
    match digitsVal ip with
    | some n => some ⟨signed.1 * (n : Int), 1⟩
    | none => none
  | _ :: fp =>
    if ip.isEmpty && fp.isEmpty then none
    else if ip.all Char.isDigit && fp.all Char.isDigit then
      some ⟨signed.1 * ((intValOf ip : Int) * (10 : Int) ^ fp.length + (intValOf fp : Int)),
        (10 : Nat) ^ fp.length⟩
    else none

/-- Comma split of a character list, matching Rust str::split with a comma
separator: always at least one (possibly empty) field. -/
def splitComma : List Char → List (List Char)
  | [] => [[]]
  | c :: rest =>
    if c = ',' then [] :: splitComma rest
    else
      match splitComma rest with
      | [] => [[c]]
      | h :: t => (c :: h) :: t

/-- Character list of the literal part of the GNSS data regex of lib.rs. -/
def gnssTag : List Char := "+CGNSINF: ".data

/-- Capture of the GNSS data regex applied to a character list: the first
position where the literal tag matches and is followed by at least one
character other than a line feed; the capture is the greedy run of such
characters (the dot of the regex crate matches every character except the
line feed, including the carriage return).  Returns none when no position
matches. -/
def gnssCaptureGo : List Char → Option (List Char)
  | [] => none
  | c :: rest =>
    if List.isPrefixOf gnssTag (c :: rest) then
      let run := ((c :: rest).drop gnssTag.length).takeWhile (fun x => x ≠ '\n')
      if run.isEmpty then gnssCaptureGo rest else some run
    else gnssCaptureGo rest

/-- Embedding of a chrono UTC date and time built by with_ymd_and_hms. -/
structure UtcDateTime where
  year : Int
  month : Nat
  day : Nat
  hour : Nat
  minute : Nat
  second : Nat
deriving DecidableEq

/-- Leap year rule used by the calendar validity check. -/
def isLeapYear (y : Int) : Bool :=
  (y % 4 == 0 && y % 100 != 0) || y % 400 == 0

/-- Days of the given month in the given year. -/
def daysInMonth (y : Int) (m : Nat) : Nat :=
  if m = 2 then (if isLeapYear y then 29 else 28)
  else if m = 4 ∨ m = 6 ∨ m = 9 ∨ m = 11 then 30
  else 31

/-- Embedding of Utc.with_ymd_and_hms followed by unwrap from gnss.rs: some
on a valid calendar date and time of day, none (a panic of unwrap) on an
invalid one. -/
def mkUtcDateTime (y : Int) (mo d h mi s : Nat) : Option UtcDateTime :=
  if 1 ≤ mo ∧ mo ≤ 12 ∧ 1 ≤ d ∧ d ≤ daysInMonth y mo ∧ h ≤ 23 ∧ mi ≤ 59 ∧ s ≤ 59
  then some ⟨y, mo, d, h, mi, s⟩ else none

/-- Embedding of GNSSData from gnss.rs, with fields in declaration order. -/
structure GNSSData where
  lat : Decimal
  lon : Decimal
  alt : Decimal
  ground_speed : Decimal
  ground_course : Decimal
  sats_in_view : Nat
  sats_in_use : Nat
  utc_datetime : UtcDateTime
deriving DecidableEq

/-- Field extraction and parsing of the captured GNSS payload, following the
body of the resolver of get_data from gnss.rs, lines 35-75, in source
evaluation order.  Every Rust panic site (vector indexing, string slicing,
expect on a parse, unwrap on the date constructor) is a none. -/
def gnssParse (data : List (List Char)) : Option (Except Error GNSSData) :=
  match data.get? 0 with
  | none => none
  | some f0 =>
  match parseU8 f0 with
  | none => none
  | some run =>
  if run = 0 then some (Except.error Error.GnssModuleOff) else
  match data.get? 1 with
  | none => none
  | some f1 =>
  match parseU8 f1 with
  | none => none
  | some fixStatus =>
  if fixStatus = 0 then some (Except.error Error.GnssNotFixed) else
  match data.get? 2 with
  | none => none
  | some f2 =>
  if f2.length < 14 then none else
  match parseI32 (f2.take 4) with
  | none => none
  | some y =>
  match parseU32 ((f2.drop 4).take 2) with
  | none => none
  | some mo =>
  match parseU32 ((f2.drop 6).take 2) with
  | none => none
  | some d =>
  match parseU32 ((f2.drop 8).take 2) with
  | none => none
  | some h =>
  match parseU32 ((f2.drop 10).take 2) with
  | none => none
  | some mi =>
  match parseU32 ((f2.drop 12).take 2) with
  | none => none
  | some s =>
  match mkUtcDateTime y mo d h mi s with
  | none => none
  | some utc =>
  match data.get? 3 with
  | none => none
  | some f3 =>
  match parseDecimal f3 with
  | none => none
  | some lat =>
  match data.get? 4 with
  | none => none
  | some f4 =>
  match parseDecimal f4 with
  | none => none
  | some lon =>
  match data.get? 5 with
  | none => none
  | some f5 =>
  match parseDecimal f5 with
  | none => none
  | some alt =>
  match data.get? 6 with
  | none => none
  | some f6 =>
  match parseDecimal f6 with
  | none => none
  | some gs =>
  match data.get? 7 with
  | none => none
  | some f7 =>
  match parseDecimal f7 with
  | none => none
  | some gc =>
  match data.get? 14 with
  | none => none
  | some f14 =>
  match parseU8 f14 with
  | none => none
  | some siv =>
  match data.get? 15 with
  | none => none
  | some f15 =>
  match parseU8 f15 with
  | none => none
  | some siu =>
  some (Except.ok ⟨lat, lon, alt, gs, gc, siv, siu, utc⟩)

/-- Embedding of the resolver of get_data from gnss.rs, lines 33-79: when the
GNSS data regex does not match the text the resolver returns NotResolved;
when it matches, the captured payload is split on commas and parsed.  A
none return models a panic of the source resolver. -/
def gnss_resolver (result : String) : Option (Except Error GNSSData) :=
  match gnssCaptureGo result.data with
  | none => some (Except.error Error.NotResolved)
  | some cap => gnssParse (splitComma cap)

/-- Exact GNSS broker input of end-to-end scenario one of the spec. -/
def gnssSpecInput : String :=
  "+CGNSINF: 1,1,20240115120000.000,50.0647,19.9450,237.1,0.0,0.0,1,,,,,1.1,0.8,0.8,,10,8,,,24,,\r\n\r\nOK\r\n"

/-- Variant of the scenario input whose comma fields are aligned with the
indices the get_data resolver reads: one reserved field after the fix mode,
so that the satellite counts are comma fields fourteen and fifteen. -/
def gnssAlignedInput : String :=
  "+CGNSINF: 1,1,20240115120000.000,50.0647,19.9450,237.1,0.0,0.0,1,,1.1,0.8,0.8,,10,8,,,24,,\r\n\r\nOK\r\n"

/-- Steps of the HTTP request flow of gprs.rs and http.rs, in the order the
source issues them. -/
inductive HttpStep where
  | terminate1
  | connStatus
  | connOpen
  | httpInit
  | httpData
  | httpAction
  | httpRead
  | terminate2
  | connClose
deriving DecidableEq

/-- Environment of one HTTP request: the outcome of each UART step of the
flow of gprs.rs (request, lines 110-132) and http.rs, abstracted over the
poll environments of the individual process calls. -/
structure ReqEnv where
  isPost : Bool
  terminateRes1 : Except Error Unit
  connStatusRes : Except Error Nat
  connOpenRes : Except Error Unit
  initRes : Except Error Unit
  dataRes : Except Error Unit
  actionRes : Except Error Unit
  readRes : Except Error String
  terminateRes2 : Except Error Unit
  connCloseRes : Except Error Unit

/-- Embedding of request from gprs.rs, lines 110-132, with the trace of the
steps that were executed.  The initial terminate is best effort (its result
is bound to an ignored binding in the source); every later step propagates
its error with the question mark operator, so the first failing step ends
the flow with its own error. -/
def gprs_request (env : ReqEnv) : Except Error String × List HttpStep :=
  let tr0 := [HttpStep.terminate1, HttpStep.connStatus]
  match env.connStatusRes with
  | Except.error e => (Except.error e, tr0)
  | Except.ok status =>
    let opened : Except Error Unit × List HttpStep :=
      if status = 3 then (env.connOpenRes, tr0 ++ [HttpStep.connOpen]) else (Except.ok (), tr0)
    match opened.1 with
    | Except.error e => (Except.error e, opened.2)
    | Except.ok _ =>
      let tr1 := opened.2 ++ [HttpStep.httpInit]
      match env.initRes with
      | Except.error e => (Except.error e, tr1)
      | Except.ok _ =>
        let dataStep : Except Error Unit × List HttpStep :=
          if env.isPost then (env.dataRes, tr1 ++ [HttpStep.httpData]) else (Except.ok (), tr1)
        match dataStep.1 with
        | Except.error e => (Except.error e, dataStep.2)
        | Except.ok _ =>
          let tr2 := dataStep.2 ++ [HttpStep.httpAction]
          match env.actionRes with
          | Except.error e => (Except.error e, tr2)
          | Except.ok _ =>
            let tr3 := tr2 ++ [HttpStep.httpRead]
            match env.readRes with
            | Except.error e => (Except.error e, tr3)
            | Except.ok readStr =>
              let tr4 := tr3 ++ [HttpStep.terminate2]
              match env.terminateRes2 with
              | Except.error e => (Except.error e, tr4)
              | Except.ok _ => (Except.ok readStr, tr4)

/-- Embedding of request_wrapper from gprs.rs, lines 134-146: run the inner
request, then always run the connection close; the question mark operator on
the close call propagates a close failure as the overall result, and only
when the close succeeds is the stored inner result returned. -/
def request_wrapper (env : ReqEnv) : Except Error String × List HttpStep :=
  let inner := gprs_request env
  let tr := inner.2 ++ [HttpStep.connClose]
  match env.connCloseRes with
  | Except.error e => (Except.error e, tr)
  | Except.ok _ => (inner.1, tr)

/-- Request environment in which the inner request fails at the connection
status probe and the final connection close also fails. -/
def bothFailEnv : ReqEnv :=
  ⟨false, Except.ok (), Except.error Error.GprsNoConnection, Except.ok (), Except.ok (),
    Except.ok (), Except.ok (), Except.ok "", Except.ok (),
    Except.error Error.GprsConnectionCloseFailed⟩

/-- Request environment in which every step succeeds. -/
def allOkEnv : ReqEnv :=
  ⟨false, Except.ok (), Except.ok 1, Except.ok (), Except.ok (),
    Except.ok (), Except.ok (), Except.ok "body", Except.ok (), Except.ok ()⟩

/-- Prefix of the poll list the uart_read loop can reach: the polls before
the first one whose elapsed time exceeds the timeout. -/
def withinTimeout (timeout : Nat) (ps : List (Nat × String)) : List (Nat × String) :=
  ps.takeWhile (fun p => p.1 ≤ timeout)

/-- Claim C1 (counterexample): the terminator arrives split across two poll
iterations; the trace of resolver invocations shows the second invocation
received only the latest fragment and not the accumulated text of all bytes
read since the start of the call, and the call fails to resolve although the
full terminator has arrived. -/
theorem uart_read_not_accumulated_cx :
    uartReadTrace 1000 hat_is_on_resolver (mkPolls [(0, "\r\nOK"), (100, "\r\n")]) =
      ["\r\nOK", "\r\n"] ∧
    ("\r\n" : String) ≠ "\r\nOK" ++ "\r\n" ∧
    uart_read 1000 hat_is_on_resolver (mkPolls [(0, "\r\nOK"), (100, "\r\n")]) =
      Except.error Error.NotResolved :=
  ⟨rfl, by decide, rfl⟩

/-- Claim C1 (amended): on every invocation of the resolver during a
uart_read call, the string passed to the resolver is the UTF-8 text of only
the bytes read in that poll iteration, because the byte buffer is created
afresh each iteration; the invocation trace is the fragment of each
processed poll, a prefix of the poll environment, not an accumulation. -/
theorem uart_read_fragment_only {T : Type} (timeout : Nat)
    (resolver : String → Except Error T) (ps : List (Nat × String)) :
    ∃ k, uartReadTrace timeout resolver (mkPolls ps) = (ps.take k).map Prod.snd := by
  induction ps with
  | nil => exact ⟨0, rfl⟩
  | cons p ps ih =>
    by_cases h1 : p.1 ≤ timeout
    · cases hr : resolver p.2 with
      | ok d =>
        refine ⟨1, ?_⟩
        simp [uartReadTrace, uartReadGo, mkPolls, h1, hr]
      | error e =>
        by_cases hk : e.kind = ErrorKind.NotResolved
        · obtain ⟨k, hks⟩ := ih
          refine ⟨k + 1, ?_⟩
          simp only [uartReadTrace, mkPolls, List.map_cons, uartReadGo, h1, if_true, hr, hk,
            if_pos, List.take_succ_cons]
          simpa [uartReadTrace, mkPolls] using hks
        · refine ⟨1, ?_⟩
          simp [uartReadTrace, uartReadGo, mkPolls, h1, hr, hk]
    · refine ⟨0, ?_⟩
      simp [uartReadTrace, uartReadGo, mkPolls, h1]

/-- Claim C3 (counterexample): in a run where the inner request fails at the
connection status probe and the connection close also fails, the wrapper
returns the close error, not the inner error, although the inner request
failed. -/
theorem request_wrapper_close_error_cx :
    (request_wrapper bothFailEnv).1 = Except.error Error.GprsConnectionCloseFailed ∧
    (gprs_request bothFailEnv).1 = Except.error Error.GprsNoConnection ∧
    Error.GprsConnectionCloseFailed ≠ Error.GprsNoConnection :=
  ⟨rfl, rfl, by decide⟩

/-- Claim C3 (amended): the connection close step runs after the inner
request regardless of the inner outcome; when the close step fails its error
is the overall outcome regardless of the inner result, and only when the
close step succeeds does the caller receive the inner outcome; within the
inner request the first failing step ends the flow with its own error. -/
theorem request_wrapper_close_spec (env : ReqEnv) :
    (request_wrapper env).2 = (gprs_request env).2 ++ [HttpStep.connClose] ∧
    (∀ e, env.connCloseRes = Except.error e → (request_wrapper env).1 = Except.error e) ∧
    (env.connCloseRes = Except.ok () → (request_wrapper env).1 = (gprs_request env).1) ∧
    (∀ e, env.connStatusRes = Except.error e → (gprs_request env).1 = Except.error e) := by
  refine ⟨?_, ?_, ?_, ?_⟩
  · cases h : env.connCloseRes <;> simp [request_wrapper, h]
  · intro e he
    simp [request_wrapper, he]
  · intro he
    simp [request_wrapper, he]
  · intro e he
    simp [gprs_request, he]

/-- Claim C3 (witness for the amended theorem): concrete instances of the
close-failure and the close-success branches. -/
theorem request_wrapper_close_spec_witness :
    (request_wrapper bothFailEnv).1 = Except.error Error.GprsConnectionCloseFailed ∧
    (request_wrapper allOkEnv).1 = (gprs_request allOkEnv).1 :=
  ⟨(request_wrapper_close_spec bothFailEnv).2.1 Error.GprsConnectionCloseFailed rfl,
   (request_wrapper_close_spec allOkEnv).2.2.1 rfl⟩

/-- Claim C4: the feature resolvers are not total.  The network strength
resolver panics (models as none) on a truncated CSQ payload whose digit
group is empty, and the GNSS resolver panics on a truncated CGNSINF payload
with fewer than three comma fields; a well formed CSQ payload still parses,
showing the crash is specific to the malformed inputs. -/
theorem feature_resolvers_crash :
    network_strength_resolver "+CSQ: \r\n\r\nOK\r\n" = none ∧
    gnss_resolver "+CGNSINF: 1,1" = none ∧
    network_strength_resolver "+CSQ: 17,99\r\n\r\nOK\r\n" = some (Except.ok 17) :=
  ⟨rfl, rfl, rfl⟩

/-- Claim C6 (counterexample): on the exact scenario input of the claim the
get_data resolver panics (field fourteen of the payload is 0.8, which the
source parses as u8 with an expect call), so no structured fix is
returned. -/
theorem gnss_spec_input_crash_cx :
    gnss_resolver gnssSpecInput = none ∧
    ∀ g : GNSSData, gnss_resolver gnssSpecInput ≠ some (Except.ok g) := by
  refine ⟨rfl, fun g h => ?_⟩
  rw [show gnss_resolver gnssSpecInput = none from rfl] at h
  exact Option.noConfusion h

/-- Claim C6 (amended): with the comma fields aligned to the indices the
resolver reads (satellite counts at fields fourteen and fifteen), the
resolver returns the structured fix of the claim: lat 50.0647, lon 19.9450,
alt 237.1, ground speed 0.0, ground course 0.0, sats in view 10, sats in use
8, and the UTC date and time 2024-01-15T12:00:00Z.  Decimal n d denotes the
rational n / d. -/
theorem gnss_aligned_input_fix :
    gnss_resolver gnssAlignedInput =
      some (Except.ok ⟨⟨500647, 10000⟩, ⟨199450, 10000⟩, ⟨2371, 10⟩, ⟨0, 10⟩, ⟨0, 10⟩,
        10, 8, ⟨2024, 1, 15, 12, 0, 0⟩⟩) :=
  rfl

/-- Claim C7 (counterexample): when the caller supplied error is the
NotResolved error itself, generic_resolver returns that error on text that
contains neither terminator, so the claimed equivalence (the function
returns the supplied error exactly when the text contains the ERROR
terminator) fails on this input. -/
theorem generic_resolver_notResolved_cx :
    generic_resolver "" Error.NotResolved = Except.error Error.NotResolved ∧
    error_check "" = false :=
  ⟨rfl, rfl⟩

/-- Claim C7 (amended): for every supplied error other than NotResolved, the
three branches of generic_resolver are characterised exactly: the supplied
error is returned exactly when the ERROR terminator is present, success
exactly when the OK terminator is present and the ERROR terminator is not,
and NotResolved exactly when neither terminator is present. -/
theorem generic_resolver_branches (text : String) (e : Error) (he : e ≠ Error.NotResolved) :
    (generic_resolver text e = Except.error e ↔ error_check text = true) ∧
    (generic_resolver text e = Except.ok () ↔
      (ack_check text = true ∧ error_check text = false)) ∧
    (generic_resolver text e = Except.error Error.NotResolved ↔
      (error_check text = false ∧ ack_check text = false)) := by
  unfold generic_resolver
  cases herr : error_check text <;> cases hack : ack_check text <;>
    simp [herr, hack, he, Ne.symm he]

/-- Claim C7 (witness for the amended theorem): the success branch at a
concrete acknowledged input and a concrete non NotResolved error. -/
theorem generic_resolver_branches_witness :
    generic_resolver "\r\nOK\r\n" Error.GnssProblem = Except.ok () :=
  ((generic_resolver_branches "\r\nOK\r\n" Error.GnssProblem (by decide)).2.1).mpr ⟨rfl, rfl⟩

/-- Claim C10: Hat::turn_on performs the GPIO power pulse and returns success
exactly when the probe resolved to an error of kind NotResolved; a
successful probe yields the HatAlreadyOn error with no pulse, and any other
probe error is returned unchanged with no pulse. -/
theorem hat_turn_on_spec_thm (probe : Except Error Bool) :
    (hat_turn_on probe = (Except.ok (), true) ↔
      ∃ e, probe = Except.error e ∧ e.kind = ErrorKind.NotResolved) ∧
    (∀ b, probe = Except.ok b → hat_turn_on probe = (Except.error Error.HatAlreadyOn, false)) ∧
    (∀ e, probe = Except.error e → e.kind ≠ ErrorKind.NotResolved →
      hat_turn_on probe = (Except.error e, false)) := by
  refine ⟨?_, ?_, ?_⟩
  · cases probe with
    | ok b => simp [hat_turn_on]
    | error e =>
      by_cases hk : e.kind = ErrorKind.NotResolved
      · simp [hat_turn_on, hk]
      · simp [hat_turn_on, hk]
  · intro b hb
    subst hb
    simp [hat_turn_on]
  · intro e he hk
    subst he
    simp [hat_turn_on, hk]

/-- Claim C10 (witness): the three branches at concrete probe outcomes. -/
theorem hat_turn_on_spec_witness :
    hat_turn_on (Except.error Error.NotResolved) = (Except.ok (), true) ∧
    hat_turn_on (Except.ok true) = (Except.error Error.HatAlreadyOn, false) ∧
    hat_turn_on (Except.error Error.Uart) = (Except.error Error.Uart, false) :=
  ⟨(hat_turn_on_spec_thm (Except.error Error.NotResolved)).1.mpr ⟨Error.NotResolved, rfl, rfl⟩,
   (hat_turn_on_spec_thm (Except.ok true)).2.1 true rfl,
   (hat_turn_on_spec_thm (Except.error Error.Uart)).2.2 Error.Uart rfl (by decide)⟩

/-- Helper: when every reachable resolver invocation returns an error of
kind NotResolved and every uart.read call succeeds, the polling loop
processes exactly the polls within the timeout and ends with the
NotResolved error. -/
theorem uartReadGo_notResolved {T : Type} (timeout : Nat)
    (resolver : String → Except Error T) (ps : List (Nat × String))
    (h : ∀ p ∈ ps, ∃ e, resolver p.2 = Except.error e ∧ e.kind = ErrorKind.NotResolved) :
    uartReadGo timeout resolver (mkPolls ps) =
      (Except.error Error.NotResolved, (withinTimeout timeout ps).map Prod.snd) := by
  induction ps with
  | nil => simp [uartReadGo, mkPolls, withinTimeout]
  | cons p ps ih =>
    obtain ⟨e, he, hk⟩ := h p (List.mem_cons_self p ps)
    by_cases h1 : p.1 ≤ timeout
    · have ih2 := ih (fun q hq => h q (List.mem_cons_of_mem p hq))
      simp only [mkPolls, withinTimeout] at ih2
      simp [uartReadGo, mkPolls, withinTimeout, h1, he, hk, ih2]
    · simp [uartReadGo, mkPolls, withinTimeout, h1]

/-- Claim C5: a broker read or process call whose resolver yields a
NotResolved error on every invocation returns the NotResolved error as its
final outcome; the default timeout when none is supplied is 1000
milliseconds, the loop processes every poll whose elapsed time is within
the timeout (NotResolved never terminates it early), and it stops at the
first poll past the timeout. -/
theorem uart_read_timeout_notResolved {T : Type}
    (resolver : String → Except Error T) (ps : List (Nat × String))
    (h : ∀ p ∈ ps, ∃ e, resolver p.2 = Except.error e ∧ e.kind = ErrorKind.NotResolved) :
    serial_read none resolver (mkPolls ps) = Except.error Error.NotResolved ∧
    serial_process (Except.ok ()) none resolver (mkPolls ps) = Except.error Error.NotResolved ∧
    uartReadTrace 1000 resolver (mkPolls ps) = (withinTimeout 1000 ps).map Prod.snd := by
  have hgo := uartReadGo_notResolved 1000 resolver ps h
  refine ⟨?_, ?_, ?_⟩
  · simp [serial_read, uart_read, hgo]
  · simp [serial_process, uart_read, hgo]
  · simp [uartReadTrace, hgo]

/-- Claim C5 (witness): a resolver that always returns NotResolved, with one
poll inside and one poll beyond the default timeout. -/
theorem uart_read_timeout_notResolved_witness :
    serial_read none (fun _ => (Except.error Error.NotResolved : Except Error Unit))
      (mkPolls [(0, "x"), (1001, "y")]) = Except.error Error.NotResolved ∧
    uartReadTrace 1000 (fun _ => (Except.error Error.NotResolved : Except Error Unit))
      (mkPolls [(0, "x"), (1001, "y")]) =
      (withinTimeout 1000 [(0, "x"), (1001, "y")]).map Prod.snd :=
  ⟨(uart_read_timeout_notResolved _ [(0, "x"), (1001, "y")]
      (fun _ _ => ⟨Error.NotResolved, rfl, rfl⟩)).1,
   (uart_read_timeout_notResolved _ [(0, "x"), (1001, "y")]
      (fun _ _ => ⟨Error.NotResolved, rfl, rfl⟩)).2.2⟩

/-- Claim C8: when the AT probe of turn_off resolves to nothing within its
2000 millisecond timeout (no fragment ever contains the OK terminator), the
probe returns NotResolved and turn_off maps it to the HatAlreadyOff error
without writing the power-down command; when the probe succeeds the
power-down command is written, and any other probe error is returned
unchanged. -/
theorem hat_turn_off_spec_thm (pd : Except Error Unit) :
    (∀ ps : List (Nat × String), (∀ p ∈ ps, ack_check p.2 = false) →
      hat_turn_off (Except.ok ()) (mkPolls ps) pd = (Except.error Error.HatAlreadyOff, false)) ∧
    (∀ w polls b, hat_is_on w polls = Except.ok b → hat_turn_off w polls pd = (pd, true)) ∧
    (∀ w polls e, hat_is_on w polls = Except.error e → e.kind ≠ ErrorKind.NotResolved →
      hat_turn_off w polls pd = (Except.error e, false)) := by
  refine ⟨?_, ?_, ?_⟩
  · intro ps hps
    have hnr : ∀ p ∈ ps, ∃ e, hat_is_on_resolver p.2 = Except.error e ∧
        e.kind = ErrorKind.NotResolved := by
      intro p hp
      exact ⟨Error.NotResolved, by simp [hat_is_on_resolver, hps p hp], rfl⟩
    have hgo := uartReadGo_notResolved 2000 hat_is_on_resolver ps hnr
    have hio : hat_is_on (Except.ok ()) (mkPolls ps) = Except.error Error.NotResolved := by
      simp [hat_is_on, serial_process, uart_read, hgo]
    simp [hat_turn_off, hio, Error.kind]
  · intro w polls b hio
    simp [hat_turn_off, hio]
  · intro w polls e hio hk
    simp [hat_turn_off, hio, hk]

/-- Claim C8 (witness): a silent modem (one empty poll) yields HatAlreadyOff
without the power-down write; an acknowledged probe performs the power-down
write. -/
theorem hat_turn_off_spec_witness :
    hat_turn_off (Except.ok ()) (mkPolls [(0, "")]) (Except.ok ()) =
      (Except.error Error.HatAlreadyOff, false) ∧
    hat_turn_off (Except.ok ()) (mkPolls [(0, "\r\nOK\r\n")]) (Except.ok ()) =
      (Except.ok (), true) :=
  ⟨(hat_turn_off_spec_thm (Except.ok ())).1 [(0, "")] (by decide),
   (hat_turn_off_spec_thm (Except.ok ())).2.1 (Except.ok ()) (mkPolls [(0, "\r\nOK\r\n")]) true rfl⟩

/-- Helper: peek returns none exactly on the empty queue. -/
theorem queuePeek_eq_none_iff (q : List QEntry) : queuePeek q = none ↔ q = [] := by
  cases q with
  | nil => simp [queuePeek]
  | cons e es =>
    have hne : queuePeek (e :: es) ≠ none := by
      simp only [queuePeek]
      cases queuePeek es with
      | none => simp
      | some b => by_cases hlt : e.2.toNat < b.2.toNat <;> simp [hlt]
    simp [hne]

/-- Demonstration queue: one NORMAL task pushed first, then two HIGH tasks. -/
def demoQueue : List QEntry :=
  [(5, TaskPriority.NORMAL), (7, TaskPriority.HIGH), (9, TaskPriority.HIGH)]

/-- Claim C2: for every non-empty queue, peek (whose identifier is the one
await_in_queue releases) returns an entry of the queue whose priority is
maximal, and every entry pushed strictly earlier has strictly smaller
priority, so among the entries of maximal priority the released one is the
earliest pushed; in particular entries of equal priority are released in
insertion order. -/
theorem queue_peek_priority_fifo (q : List QEntry) (h : q ≠ []) :
    ∃ i : Fin q.length, queuePeek q = some (q.get i) ∧
      awaitCheck (q.get i).1 q = some true ∧
      (∀ j : Fin q.length, ((q.get j).2).toNat ≤ ((q.get i).2).toNat) ∧
      (∀ j : Fin q.length, (j : Nat) < (i : Nat) → ((q.get j).2).toNat < ((q.get i).2).toNat) := by
  induction q with
  | nil => exact absurd rfl h
  | cons e es ih =>
    cases hes : queuePeek es with
    | none =>
      have hese : es = [] := (queuePeek_eq_none_iff es).mp hes
      subst hese
      have hpeek : queuePeek [e] = some e := by simp [queuePeek]
      refine ⟨⟨0, Nat.zero_lt_one⟩, hpeek, ?_, ?_, ?_⟩
      · simp [awaitCheck, hpeek]
      · intro j
        rcases j with ⟨jv, hjv⟩
        have hj0 : jv = 0 := Nat.lt_one_iff.mp hjv
        subst hj0
        exact Nat.le_refl _
      · intro j hj
        exact absurd hj (Nat.not_lt_zero _)
    | some b =>
      have hne : es ≠ [] := by
        intro hh
        rw [hh] at hes
        simp [queuePeek] at hes
      obtain ⟨i', h1, _, h3, h4⟩ := ih hne
      have hb : b = es.get i' := by
        rw [hes] at h1
        exact Option.some_inj.mp h1
      by_cases hlt : e.2.toNat < b.2.toNat
      · have hpeek : queuePeek (e :: es) = some (es.get i') := by
          simp only [queuePeek, hes]
          rw [if_pos hlt, hb]
        refine ⟨⟨i'.1 + 1, Nat.succ_lt_succ i'.isLt⟩, hpeek, ?_, ?_, ?_⟩
        · simp [awaitCheck, hpeek]
        · intro j
          rcases j with ⟨jv, hjv⟩
          cases jv with
          | zero =>
            rw [hb] at hlt
            exact Nat.le_of_lt hlt
          | succ jj =>
            exact h3 ⟨jj, Nat.lt_of_succ_lt_succ hjv⟩
        · intro j hj
          rcases j with ⟨jv, hjv⟩
          cases jv with
          | zero =>
            rw [hb] at hlt
            exact hlt
          | succ jj =>
            exact h4 ⟨jj, Nat.lt_of_succ_lt_succ hjv⟩ (Nat.lt_of_succ_lt_succ hj)
      · have hpeek : queuePeek (e :: es) = some e := by
          simp only [queuePeek, hes]
          rw [if_neg hlt]
        have hble : b.2.toNat ≤ e.2.toNat := Nat.le_of_not_lt hlt
        refine ⟨⟨0, Nat.succ_pos _⟩, hpeek, ?_, ?_, ?_⟩
        · simp [awaitCheck, hpeek]
        · intro j
          rcases j with ⟨jv, hjv⟩
          cases jv with
          | zero => exact Nat.le_refl _
          | succ jj =>
            have hle := h3 ⟨jj, Nat.lt_of_succ_lt_succ hjv⟩
            rw [← hb] at hle
            exact Nat.le_trans hle hble
        · intro j hj
          exact absurd hj (Nat.not_lt_zero _)

/-- Claim C2 (witness): the ordering property applied to a concrete queue
with one NORMAL entry pushed before two HIGH entries. -/
theorem queue_peek_priority_fifo_witness :
    ∃ i : Fin demoQueue.length, queuePeek demoQueue = some (demoQueue.get i) ∧
      awaitCheck (demoQueue.get i).1 demoQueue = some true ∧
      (∀ j : Fin demoQueue.length,
        ((demoQueue.get j).2).toNat ≤ ((demoQueue.get i).2).toNat) ∧
      (∀ j : Fin demoQueue.length, (j : Nat) < (i : Nat) →
        ((demoQueue.get j).2).toNat < ((demoQueue.get i).2).toNat) :=
  queue_peek_priority_fifo demoQueue (by decide)

/-- Helper: applying an event other than the removal of t keeps t in the
queue. -/
theorem mem_ids_applyEvent {t : Nat} {q : List QEntry} (ev : QEvent)
    (h : t ∈ ids q) (hne : ev ≠ QEvent.remove t) : t ∈ ids (applyEvent q ev) := by
  cases ev with
  | push u pr =>
    simp only [applyEvent, ids, List.map_append]
    exact List.mem_append_left _ h
  | remove u =>
    have hut : u ≠ t := fun hh => hne (by rw [hh])
    obtain ⟨x, hxq, hxt⟩ := List.mem_map.mp h
    refine List.mem_map.mpr ⟨x, List.mem_filter.mpr ⟨hxq, ?_⟩, hxt⟩
    simp [hxt, Ne.symm hut]

/-- Helper: a task in the queue stays in the queue across any event sequence
that never removes it. -/
theorem runEvents_keeps {t : Nat} : ∀ (tr : List QEvent) (q : List QEntry),
    t ∈ ids q → QEvent.remove t ∉ tr → t ∈ ids (runEvents q tr) := by
  intro tr
  induction tr with
  | nil => exact fun q h _ => h
  | cons ev evs ih =>
    intro q h hnr
    have hne : ev ≠ QEvent.remove t := fun hh => hnr (hh ▸ List.mem_cons_self ev evs)
    exact ih _ (mem_ids_applyEvent ev h hne) (fun hm => hnr (List.mem_cons_of_mem _ hm))

/-- Helper: a pushed task whose removal never occurs is in the final
queue. -/
theorem runEvents_pushed {t : Nat} {p : TaskPriority} : ∀ (tr : List QEvent) (q : List QEntry),
    QEvent.push t p ∈ tr → QEvent.remove t ∉ tr → t ∈ ids (runEvents q tr) := by
  intro tr
  induction tr with
  | nil => intro q h _; cases h
  | cons ev evs ih =>
    intro q hp hnr
    have hnr2 : QEvent.remove t ∉ evs := fun hm => hnr (List.mem_cons_of_mem _ hm)
    rcases List.mem_cons.mp hp with h1 | h2
    · subst h1
      have hmem : t ∈ ids (applyEvent q (QEvent.push t p)) := by
        simp [ids, applyEvent]
      simpa only [runEvents] using runEvents_keeps evs _ hmem hnr2
    · exact ih _ h2 hnr2

/-- Helper: a queue containing an identifier has a peek result. -/
theorem queuePeek_isSome_of_mem {t : Nat} {q : List QEntry} (h : t ∈ ids q) :
    queuePeek q ≠ none := by
  intro hn
  rw [queuePeek_eq_none_iff] at hn
  subst hn
  simp [ids] at h

/-- Helper: the push and remove pair of one spawned task restores any queue
that did not already contain its identifier. -/
theorem runEvents_spawn (t : Nat) (p : TaskPriority) (q : List QEntry) (h : t ∉ ids q) :
    runEvents q [QEvent.push t p, QEvent.remove t] = q := by
  simp only [runEvents, applyEvent]
  rw [List.filter_append]
  have h1 : q.filter (fun e => e.1 != t) = q := by
    apply List.filter_eq_self.mpr
    intro x hx
    have hxt : x.1 ≠ t := fun hh => h (List.mem_map.mpr ⟨x, hx, hh⟩)
    simpa using hxt
  have h2 : ([(t, p)] : List QEntry).filter (fun e => e.1 != t) = [] := by simp
  rw [h1, h2, List.append_nil]

/-- Claim C9: in any interleaving of queue events in which a task identifier
was pushed and has not been removed, that identifier is in the queue, so the
queue is non-empty and the peek of await_in_queue cannot hit the corrupted
queue panic for any waiting task; moreover the spawned task body removes its
identifier after the task function returns whatever the result is (the push
and remove pair restores the queue, and the result, success or error, is
returned unchanged). -/
theorem task_queue_lifecycle_inv {T : Type} (tr : List QEvent) (t : Nat) (p : TaskPriority)
    (q : List QEntry) (r : Except Error T) :
    (QEvent.push t p ∈ tr → QEvent.remove t ∉ tr →
      t ∈ ids (runEvents [] tr) ∧ ∀ s : Nat, awaitCheck s (runEvents [] tr) ≠ none) ∧
    (t ∉ ids q → runEvents q (spawn_task_model t p r).1 = q) ∧
    (spawn_task_model t p r).2 = r := by
  refine ⟨?_, ?_, rfl⟩
  · intro hp hnr
    have hmem := runEvents_pushed tr [] hp hnr
    refine ⟨hmem, fun s hn => ?_⟩
    simp only [awaitCheck] at hn
    exact queuePeek_isSome_of_mem hmem (Option.map_eq_none'.mp hn)
  · intro hq
    exact runEvents_spawn t p q hq

/-- Claim C9 (witness): a concrete pushed-and-not-removed trace, and the
spawn of a task that ends in an error on a concrete non-empty queue. -/
theorem task_queue_lifecycle_inv_witness :
    (0 ∈ ids (runEvents [] [QEvent.push 0 TaskPriority.NORMAL]) ∧
      ∀ s : Nat, awaitCheck s (runEvents [] [QEvent.push 0 TaskPriority.NORMAL]) ≠ none) ∧
    runEvents [(1, TaskPriority.HIGH)]
      (spawn_task_model 0 TaskPriority.NORMAL
        (Except.error Error.Uart : Except Error Unit)).1 = [(1, TaskPriority.HIGH)] :=
  ⟨(task_queue_lifecycle_inv [QEvent.push 0 TaskPriority.NORMAL] 0 TaskPriority.NORMAL
      [(1, TaskPriority.HIGH)] (Except.error Error.Uart : Except Error Unit)).1
      (by decide) (by decide),
   (task_queue_lifecycle_inv [QEvent.push 0 TaskPriority.NORMAL] 0 TaskPriority.NORMAL
      [(1, TaskPriority.HIGH)] (Except.error Error.Uart : Except Error Unit)).2.1 (by decide)⟩

end Sim868
